import Mathlib

/-!
Verification of the teeth-agent runtime (`teeth_agent/agent.py`): the command
execution engine (`TeethAgent.execute_command` and its helpers) and the
heartbeat backoff/jitter logic (`TeethAgentHeartbeater`).

The stateful Python object `TeethAgent` is embedded as explicit state passing:
each operation takes an `AgentState` and returns the updated state together
with either a result or the raised error.  Exceptions are modelled as
`Except`/explicit error values; time values and delays are modelled as `ℚ`.
-/

/-- Opaque payload of a captured exception. -/
abbrev Exc := String

/-- Keyword arguments of a command invocation. -/
abbrev Kwargs := List (String × String)

/-- Modelled from the spec: `CommandResult` (module `teeth_agent.base`, not in
`src/`) — "unique id, command name, input arguments, a completion predicate
(`is_done`), and — when finalized — a success flag and either a return value
or a captured error".  The engine only depends on `id` and `is_done`. -/
structure CommandResult where
  id : String
  command_name : String
  command_params : Kwargs
  is_done : Bool
  success : Bool
  error : Option Exc
deriving DecidableEq, Repr

/-- Modelled from the spec: `base.SyncCommandResult(command_name, kwargs,
success, error)` — "a *synchronous* result that is already complete at
construction time".  The unique id generated at construction is passed in
explicitly as `fresh_id`. -/
def SyncCommandResult (fresh_id : String) (command_name : String)
    (params : Kwargs) (success : Bool) (err : Exc) : CommandResult :=
  { id := fresh_id
    command_name := command_name
    command_params := params
    is_done := true
    success := success
    error := some err }

/-- Outcome of a mode plugin's `execute(command, kwargs)` call:
a normal return, a raised `teeth_rest.errors.InvalidContentError`,
or any other raised exception. -/
inductive ExecOutcome where
  | returns (result : CommandResult)
  | invalid_content (e : Exc)
  | raises (e : Exc)

/-- A mode plugin capability: a stable `name` and an `execute` operation. -/
structure Mode where
  name : String
  execute : String → Kwargs → ExecOutcome

/-- Errors raised by the agent code (`teeth_agent.errors` plus
`teeth_rest.errors.InvalidContentError`). -/
inductive AgentError where
  | InvalidCommandError (message : String)
  | CommandExecutionError (message : String)
  | RequestedObjectNotFoundError (type_name : String) (object_id : String)
  | InvalidContentError (e : Exc)
deriving DecidableEq, Repr

/-- The external stevedore plugin registry (`driver.DriverManager` under the
`teeth_agent.modes` namespace): given a mode name, either instantiates the
plugin or fails with some exception. -/
abbrev ModeRegistry := String → Except Exc Mode

/-- Python's `str.lower()` on the character list (ASCII case folding, which
is what the agent's mode names use). -/
def toLowerChars : List Char → List Char
  | [] => []
  | c :: rest => c.toLower :: toLowerChars rest

/-- Python's `str.lower()`. -/
def py_lower (s : String) : String := String.mk (toLowerChars s.data)

/-- `_load_mode_implementation(mode_name)`: looks up `mode_name.lower()` in
the external driver registry and returns the instantiated driver. -/
def load_mode_implementation (dm : ModeRegistry) (mode_name : String) :
    Except Exc Mode :=
  dm (py_lower mode_name)

/-- The mutable state of a `TeethAgent` that `execute_command` touches:
the bound-mode slot `mode_implementation` (initially `None`) and the
insertion-ordered result history `command_results` (an `OrderedDict` keyed
by result id, embedded as an association list in insertion order). -/
structure AgentState where
  mode_implementation : Option Mode
  command_results : List (String × CommandResult)

/-- A fresh agent: unbound mode, empty history. -/
def initialAgentState : AgentState :=
  { mode_implementation := none, command_results := [] }

/-- `OrderedDict.__setitem__`: if the key is present, replace its value in
place (keeping its position); otherwise append the new pair at the end. -/
def od_insert (l : List (String × CommandResult)) (k : String)
    (v : CommandResult) : List (String × CommandResult) :=
  if l.any (fun p => p.1 == k) then
    l.map (fun p => if p.1 = k then (k, v) else p)
  else
    l ++ [(k, v)]

/-- `OrderedDict.__getitem__` as an `Option`: first pair with the given key. -/
def od_lookup (l : List (String × CommandResult)) (k : String) :
    Option CommandResult :=
  match l with
  | [] => none
  | p :: rest => if p.1 = k then some p.2 else od_lookup rest k

/-- `TeethAgent.get_command_result(result_id)`: look the id up in the history,
raising `RequestedObjectNotFoundError` on a missing key. -/
def get_command_result (s : AgentState) (result_id : String) :
    Except AgentError CommandResult :=
  match od_lookup s.command_results result_id with
  | some r => .ok r
  | none => .error (.RequestedObjectNotFoundError "Command Result" result_id)

/-- Python's `str.split(sep, 1)` restricted to the splitting information:
`none` when the separator does not occur (Python returns the 1-element list
`[s]`), otherwise the text before the first separator and everything after
it (Python returns the 2-element list `[before, after]`). -/
def py_split_first (sep : Char) : List Char → Option (List Char × List Char)
  | [] => none
  | c :: rest =>
      if c = sep then some ([], rest)
      else
        match py_split_first sep rest with
        | some (a, b) => some (c :: a, b)
        | none => none

/-- `TeethAgent._split_command(command_name)`: `command_name.split('.', 1)`
must produce two parts, else `InvalidCommandError` is raised. -/
def split_command (command_name : String) :
    Except AgentError (String × String) :=
  match py_split_first '.' command_name.data with
  | none =>
      .error (.InvalidCommandError
        "Command name must be of the form <mode>.<name>")
  | some (m, c) => .ok (String.mk m, String.mk c)

/-- `TeethAgent._verify_mode(mode_name, command_name)` (the second argument is
unused in the source): when unbound, try to load the mode — binding it on
success, raising `InvalidCommandError ("Unknown mode: ...")` on any load
failure; when bound, compare the bound mode's lower-cased name with
`mode_name` verbatim and raise `InvalidCommandError` on mismatch. -/
def verify_mode (dm : ModeRegistry) (s : AgentState) (mode_name : String) :
    Except AgentError AgentState :=
  match s.mode_implementation with
  | none =>
      match load_mode_implementation dm mode_name with
      | .ok impl => .ok { s with mode_implementation := some impl }
      | .error _ =>
          .error (.InvalidCommandError ("Unknown mode: " ++ mode_name))
  | some impl =>
      if py_lower impl.name ≠ mode_name then
        .error (.InvalidCommandError
          ("Agent is already in " ++ impl.name ++ " mode"))
      else
        .ok s

/-- The busy test of `execute_command`: the history is non-empty and its most
recently inserted result (`values()[-1]`) is not yet done. -/
def last_result_not_done (s : AgentState) : Bool :=
  match s.command_results.getLast? with
  | some p => !p.2.is_done
  | none => false

/-- `self.mode_implementation.execute(command_part, **kwargs)`.  The `none`
branch models the `AttributeError` Python would raise on an unbound slot
(the attribute access sits inside the `try`, so it would be caught as an
ordinary exception); `verify_mode` makes that branch unreachable. -/
def exec_on_mode (s : AgentState) (command_part : String) (kwargs : Kwargs) :
    ExecOutcome :=
  match s.mode_implementation with
  | some impl => impl.execute command_part kwargs
  | none => .raises "AttributeError"

/-- `self.command_results[result.id] = result`: record a produced result in
the history under its id. -/
def record_result (s : AgentState) (result : CommandResult) : AgentState :=
  { s with command_results := od_insert s.command_results result.id result }

/-- `TeethAgent.execute_command(command_name, **kwargs)`: split the name,
verify/bind the mode, reject when busy, dispatch to the mode — re-raising
`InvalidContentError`, converting any other exception into a failed
synchronous result — and record whatever result was produced in the history
under its id.  Returns the post-call state together with the result or the
raised error; state mutated before a raise is kept (binding a mode and then
failing the busy check leaves the mode bound). -/
def execute_command (dm : ModeRegistry) (fresh_id : String) (s : AgentState)
    (command_name : String) (kwargs : Kwargs) :
    AgentState × Except AgentError CommandResult :=
  match split_command command_name with
  | .error e => (s, .error e)
  | .ok (mode_part, command_part) =>
    match verify_mode dm s mode_part with
    | .error e => (s, .error e)
    | .ok s1 =>
      if last_result_not_done s1 then
        (s1, .error (.CommandExecutionError "agent is busy"))
      else
        match exec_on_mode s1 command_part kwargs with
        | .returns result => (record_result s1 result, .ok result)
        | .invalid_content e => (s1, .error (.InvalidContentError e))
        | .raises e =>
            let result := SyncCommandResult fresh_id command_name kwargs false e
            (record_result s1 result, .ok result)

/-- A sequence of `execute_command` calls, keeping only the evolving state.
Each list entry is `(fresh_id, command_name, kwargs)`. -/
def run_commands (dm : ModeRegistry) (s : AgentState)
    (cmds : List (String × String × Kwargs)) : AgentState :=
  match cmds with
  | [] => s
  | c :: rest => run_commands dm (execute_command dm c.1 s c.2.1 c.2.2).1 rest

/-! ## Heartbeater (`TeethAgentHeartbeater`) -/

/-- `TeethAgentHeartbeater.min_jitter_multiplier`. -/
def min_jitter_multiplier : ℚ := 3 / 10

/-- `TeethAgentHeartbeater.max_jitter_multiplier`. -/
def max_jitter_multiplier : ℚ := 6 / 10

/-- `TeethAgentHeartbeater.initial_delay`. -/
def initial_delay : ℚ := 1

/-- `TeethAgentHeartbeater.max_delay`. -/
def max_delay : ℚ := 300

/-- `TeethAgentHeartbeater.backoff_factor` (2.7). -/
def backoff_factor : ℚ := 27 / 10

/-- The heartbeater state that `do_heartbeat` touches: `error_delay`,
initialised to `initial_delay` in `__init__`. -/
structure HeartbeaterState where
  error_delay : ℚ
deriving DecidableEq, Repr

/-- Outcome of one `self.api.heartbeat(...)` call: either a server-supplied
absolute deadline, or any raised exception. -/
inductive HeartbeatOutcome where
  | success (deadline : ℚ)
  | failure

/-- `TeethAgentHeartbeater.do_heartbeat` at time `now`: on success return the
server deadline and reset `error_delay` to `initial_delay`; on failure
synthesize the deadline `now + error_delay` (pre-update value) and then set
`error_delay := min (error_delay * backoff_factor) max_delay`. -/
def do_heartbeat (s : HeartbeaterState) (now : ℚ) (o : HeartbeatOutcome) :
    ℚ × HeartbeaterState :=
  match o with
  | .success deadline => (deadline, { error_delay := initial_delay })
  | .failure =>
      (now + s.error_delay,
       { error_delay := min (s.error_delay * backoff_factor) max_delay })

/-- The sleep interval computed in `TeethAgentHeartbeater.run`:
`(next_heartbeat_by - time.time()) * interval_multiplier`. -/
def heartbeat_interval (next_heartbeat_by now r : ℚ) : ℚ :=
  (next_heartbeat_by - now) * r

/-- `error_delay` after `n` consecutive failing `do_heartbeat` calls starting
from a freshly initialised heartbeater (the wall-clock time passed to
`do_heartbeat` does not affect the state, so `0` is used). -/
def delay_after_failures : Nat → ℚ
  | 0 => initial_delay
  | n + 1 =>
      (do_heartbeat { error_delay := delay_after_failures n } 0 .failure).2.error_delay

/-! ## Helper lemmas -/

/-- `py_split_first` finds no split exactly when the separator is absent. -/
theorem py_split_first_eq_none {sep : Char} {l : List Char} (h : sep ∉ l) :
    py_split_first sep l = none := by
  induction l with
  | nil => rfl
  | cons c rest ih =>
      simp only [List.mem_cons, not_or] at h
      unfold py_split_first
      rw [if_neg (fun hc => h.1 hc.symm), ih h.2]

/-- A successful `py_split_first` cuts the list at its first separator. -/
theorem py_split_first_eq_some {sep : Char} {l a b : List Char}
    (h : py_split_first sep l = some (a, b)) :
    l = a ++ sep :: b ∧ sep ∉ a := by
  induction l generalizing a b with
  | nil => simp [py_split_first] at h
  | cons c rest ih =>
      unfold py_split_first at h
      by_cases hc : c = sep
      · rw [if_pos hc] at h
        injection h with h
        obtain ⟨ha, hb⟩ := Prod.mk.injEq _ _ _ _ ▸ h
        subst hc
        simp [← ha, ← hb]
      · rw [if_neg hc] at h
        cases hps : py_split_first sep rest with
        | none => rw [hps] at h; cases h
        | some ab =>
            obtain ⟨a1, b1⟩ := ab
            rw [hps] at h
            injection h with h
            obtain ⟨ha, hb⟩ := Prod.mk.injEq _ _ _ _ ▸ h
            obtain ⟨hrest, hnotmem⟩ := ih hps
            subst ha hb
            constructor
            · simp [hrest]
            · simp only [List.mem_cons, not_or]
              exact ⟨fun hs => hc hs.symm, hnotmem⟩

/-- Replacing the value stored under a present key makes lookup return it. -/
theorem od_lookup_map_replace (l : List (String × CommandResult)) (k : String)
    (v : CommandResult) (h : l.any (fun p => p.1 == k) = true) :
    od_lookup (l.map (fun p => if p.1 = k then (k, v) else p)) k = some v := by
  induction l with
  | nil => simp at h
  | cons p rest ih =>
      by_cases hp : p.1 = k
      · simp [od_lookup, hp]
      · have hrest : rest.any (fun p => p.1 == k) = true := by
          simp only [List.any_cons, Bool.or_eq_true, beq_iff_eq] at h
          exact List.any_eq_true.mpr (by
            rcases h with h | h
            · exact absurd h hp
            · exact List.any_eq_true.mp h)
        simp [od_lookup, hp, ih hrest]

/-- Appending a fresh key makes lookup return its value. -/
theorem od_lookup_append_self (l : List (String × CommandResult)) (k : String)
    (v : CommandResult) (h : l.any (fun p => p.1 == k) = false) :
    od_lookup (l ++ [(k, v)]) k = some v := by
  induction l with
  | nil => simp [od_lookup]
  | cons p rest ih =>
      simp only [List.any_cons, Bool.or_eq_false_iff, beq_eq_false_iff_ne] at h
      simpa [od_lookup, h.1] using ih (by
        simpa using h.2)

/-- After an `OrderedDict` insert, looking the key up returns the value. -/
theorem od_lookup_insert (l : List (String × CommandResult)) (k : String)
    (v : CommandResult) :
    od_lookup (od_insert l k v) k = some v := by
  unfold od_insert
  by_cases h : l.any (fun p => p.1 == k) = true
  · rw [if_pos h]
    exact od_lookup_map_replace l k v h
  · rw [if_neg h]
    exact od_lookup_append_self l k v (Bool.eq_false_iff.mpr h)


theorem verify_mode_bound_ok (dm : ModeRegistry) (s : AgentState) (impl : Mode)
    (m : String) (s1 : AgentState) (hb : s.mode_implementation = some impl)
    (h : verify_mode dm s m = .ok s1) : s1 = s := by
  simp only [verify_mode, hb] at h
  by_cases hc : py_lower impl.name = m
  · rw [if_neg (fun hne => hne hc)] at h
    injection h with h
    exact h.symm
  · rw [if_pos hc] at h
    cases h

theorem verify_mode_ok_of_bound (dm : ModeRegistry) (s : AgentState) (impl : Mode)
    (m : String) (hb : s.mode_implementation = some impl)
    (hm : m = py_lower impl.name) : verify_mode dm s m = .ok s := by
  simp only [verify_mode, hb]
  rw [if_neg (fun hne => hne hm.symm)]

theorem verify_mode_mismatch (dm : ModeRegistry) (s : AgentState) (impl : Mode)
    (m : String) (hb : s.mode_implementation = some impl)
    (hm : py_lower impl.name ≠ m) :
    verify_mode dm s m =
      .error (.InvalidCommandError
        ("Agent is already in " ++ impl.name ++ " mode")) := by
  simp only [verify_mode, hb]
  rw [if_pos hm]

theorem verify_mode_preserves_results (dm : ModeRegistry) (s : AgentState)
    (m : String) (s1 : AgentState) (h : verify_mode dm s m = .ok s1) :
    s1.command_results = s.command_results := by
  cases hb : s.mode_implementation with
  | none =>
      simp only [verify_mode, hb] at h
      cases hl : load_mode_implementation dm m with
      | ok impl =>
          rw [hl] at h
          injection h with h
          rw [← h]
      | error e => rw [hl] at h; cases h
  | some impl =>
      rw [verify_mode_bound_ok dm s impl m s1 hb h]

theorem verify_mode_ok_bound (dm : ModeRegistry) (s : AgentState)
    (m : String) (s1 : AgentState) (h : verify_mode dm s m = .ok s1) :
    ∃ impl, s1.mode_implementation = some impl := by
  cases hb : s.mode_implementation with
  | none =>
      simp only [verify_mode, hb] at h
      cases hl : load_mode_implementation dm m with
      | ok impl =>
          rw [hl] at h
          injection h with h
          exact ⟨impl, by rw [← h]⟩
      | error e => rw [hl] at h; cases h
  | some impl =>
      exact ⟨impl, by rw [verify_mode_bound_ok dm s impl m s1 hb h, hb]⟩

theorem execute_command_preserves_bound (dm : ModeRegistry) (fid : String)
    (s : AgentState) (name : String) (kwargs : Kwargs) (impl : Mode)
    (h : s.mode_implementation = some impl) :
    (execute_command dm fid s name kwargs).1.mode_implementation = some impl := by
  cases hsp : split_command name with
  | error e => simp only [execute_command, hsp]; exact h
  | ok mc =>
      obtain ⟨mp, cp⟩ := mc
      cases hv : verify_mode dm s mp with
      | error e => simp only [execute_command, hsp, hv]; exact h
      | ok s1 =>
          have hs1 : s1 = s := verify_mode_bound_ok dm s impl mp s1 h hv
          by_cases hbusy : last_result_not_done s1 = true
          · simp only [execute_command, hsp, hv, hbusy, if_true]
            rw [hs1]; exact h
          · cases hex : exec_on_mode s1 cp kwargs with
            | returns r =>
                simp only [execute_command, hsp, hv,
                  Bool.eq_false_iff.mpr hbusy, Bool.false_eq_true, if_false, hex]
                rw [hs1]; exact h
            | invalid_content e =>
                simp only [execute_command, hsp, hv,
                  Bool.eq_false_iff.mpr hbusy, Bool.false_eq_true, if_false, hex]
                rw [hs1]; exact h
            | raises e =>
                simp only [execute_command, hsp, hv,
                  Bool.eq_false_iff.mpr hbusy, Bool.false_eq_true, if_false, hex]
                rw [hs1]; exact h

/-- The backoff delay never drops below the initial delay. -/
theorem one_le_delay_after_failures (n : Nat) : 1 ≤ delay_after_failures n := by
  induction n with
  | zero => norm_num [delay_after_failures, initial_delay]
  | succ n ih =>
      show (1 : ℚ) ≤ min (delay_after_failures n * backoff_factor) max_delay
      apply le_min
      · rw [backoff_factor]; linarith
      · norm_num [max_delay]

/-- The backoff delay never exceeds `max_delay`. -/
theorem delay_after_failures_le_max (n : Nat) :
    delay_after_failures n ≤ max_delay := by
  cases n with
  | zero => norm_num [delay_after_failures, initial_delay, max_delay]
  | succ n =>
      show min (delay_after_failures n * backoff_factor) max_delay ≤ max_delay
      exact min_le_right _ _

/-- Consecutive failures never shrink the backoff delay. -/
theorem delay_after_failures_mono (n : Nat) :
    delay_after_failures n ≤ delay_after_failures (n + 1) := by
  show delay_after_failures n ≤ min (delay_after_failures n * backoff_factor) max_delay
  apply le_min
  · have := one_le_delay_after_failures n
    rw [backoff_factor]
    linarith
  · exact delay_after_failures_le_max n

/-! ## Concrete fixtures -/

/-- A registry in which no mode resolves. -/
def dmFail : ModeRegistry := fun _ => .error "no such plugin"

/-- A completed successful result returned by the fixture modes. -/
def okResult : CommandResult :=
  { id := "rA", command_name := "a.b.c", command_params := [],
    is_done := true, success := true, error := none }

/-- An asynchronous-style result that is not yet done. -/
def pendingResult : CommandResult :=
  { id := "r0", command_name := "a.first", command_params := [],
    is_done := false, success := false, error := none }

/-- A mode named `a` whose every command returns `okResult`. -/
def modeA : Mode := { name := "a", execute := fun _ _ => .returns okResult }

/-- An agent bound to `modeA` with an empty history. -/
def boundA : AgentState :=
  { mode_implementation := some modeA, command_results := [] }

/-- An agent bound to `modeA` whose latest recorded result is still pending. -/
def busyA : AgentState :=
  { mode_implementation := some modeA,
    command_results := [("r0", pendingResult)] }

/-- A mode named `deploy`. -/
def modeDeploy : Mode :=
  { name := "deploy", execute := fun _ _ => .returns okResult }

/-- An agent bound to `modeDeploy` with an empty history. -/
def boundDeploy : AgentState :=
  { mode_implementation := some modeDeploy, command_results := [] }

/-- A mode whose commands always raise an ordinary exception. -/
def modeRaise : Mode := { name := "m", execute := fun _ _ => .raises "boom" }

/-- An agent bound to `modeRaise` with an empty history. -/
def boundRaise : AgentState :=
  { mode_implementation := some modeRaise, command_results := [] }

/-- A mode whose commands always raise `InvalidContentError`. -/
def modeContent : Mode :=
  { name := "m", execute := fun _ _ => .invalid_content "bad content" }

/-- An agent bound to `modeContent` with an empty history. -/
def boundContent : AgentState :=
  { mode_implementation := some modeContent, command_results := [] }

/-! ## Claims -/

/-- C1: if the result history is non-empty and its most recently inserted
`CommandResult` is not yet done, `execute_command` on a well-formed command
name matching the bound mode fails with
`CommandExecutionError ("agent is busy")` and leaves the state — in
particular the result history — unchanged.  The mode's `execute` is never
invoked: the equation holds for every bound mode `impl` uniformly in its
`execute` function. -/
theorem busy_agent_rejects_command (dm : ModeRegistry) (fid : String)
    (s : AgentState) (impl : Mode) (name : String) (kwargs : Kwargs)
    (mode_part command_part : String) (k : String) (r : CommandResult)
    (hbound : s.mode_implementation = some impl)
    (hsplit : split_command name = .ok (mode_part, command_part))
    (hmatch : mode_part = py_lower impl.name)
    (hlast : s.command_results.getLast? = some (k, r))
    (hnotdone : r.is_done = false) :
    execute_command dm fid s name kwargs =
      (s, .error (.CommandExecutionError "agent is busy")) := by
  have hv : verify_mode dm s mode_part = .ok s :=
    verify_mode_ok_of_bound dm s impl mode_part hbound hmatch
  have hbusy : last_result_not_done s = true := by
    simp [last_result_not_done, hlast, hnotdone]
  simp only [execute_command, hsplit, hv, hbusy, if_true]

/-- Witness for C1 at a concrete busy agent. -/
theorem busy_agent_rejects_command_witness :
    execute_command dmFail "f1" busyA "a.b" [] =
      (busyA, .error (.CommandExecutionError "agent is busy")) :=
  busy_agent_rejects_command dmFail "f1" busyA modeA "a.b" [] "a" "b" "r0"
    pendingResult rfl rfl rfl rfl rfl

/-- C2 counterexample: the command name `"a.b.c"` contains two separators,
yet on an agent bound to mode `a`, `execute_command` succeeds (mode part
`"a"`, bare command `"b.c"`) and appends a result to the history — it does
not fail with `InvalidCommandError`. -/
theorem multi_separator_command_accepted :
    split_command "a.b.c" = .ok ("a", "b.c") ∧
    (execute_command dmFail "f1" boundA "a.b.c" []).2 = .ok okResult ∧
    (execute_command dmFail "f1" boundA "a.b.c" []).1.command_results =
      [("rA", okResult)] :=
  ⟨rfl, rfl, rfl⟩

/-- C2 (amended): `execute_command` fails with `InvalidCommandError` (state
unchanged) exactly for command names with *zero* `.` separators; any name
containing at least one `.` is split at the *first* separator — the mode
part is the dot-free prefix and the bare command part is everything after
the first dot, possibly containing further separators. -/
theorem command_name_split_behavior (dm : ModeRegistry) (fid : String)
    (s : AgentState) (name : String) (kwargs : Kwargs) :
    ('.' ∉ name.data →
      execute_command dm fid s name kwargs =
        (s, .error (.InvalidCommandError
          "Command name must be of the form <mode>.<name>"))) ∧
    (∀ mode_part command_part : String,
      split_command name = .ok (mode_part, command_part) →
      name.data = mode_part.data ++ '.' :: command_part.data ∧
      '.' ∉ mode_part.data) := by
  constructor
  · intro h
    have hs : split_command name =
        .error (.InvalidCommandError
          "Command name must be of the form <mode>.<name>") := by
      unfold split_command
      rw [py_split_first_eq_none h]
    simp only [execute_command, hs]
  · intro mp cp h
    unfold split_command at h
    cases hps : py_split_first '.' name.data with
    | none => rw [hps] at h; cases h
    | some ab =>
        obtain ⟨a, b⟩ := ab
        rw [hps] at h
        injection h with h
        obtain ⟨h1, h2⟩ := Prod.mk.injEq _ _ _ _ ▸ h
        obtain ⟨hdata, hnot⟩ := py_split_first_eq_some hps
        subst h1 h2
        exact ⟨hdata, hnot⟩

/-- Witness for the amended C2 at the separator-free name `"nodot"`. -/
theorem command_name_split_witness :
    execute_command dmFail "f1" initialAgentState "nodot" [] =
      (initialAgentState,
       .error (.InvalidCommandError
         "Command name must be of the form <mode>.<name>")) :=
  (command_name_split_behavior dmFail "f1" initialAgentState "nodot" []).1
    (by decide)

/-- C3: once the agent is bound to a mode, any sequence of further
`execute_command` calls leaves that same mode bound — the slot never
returns to `None` and never holds a different mode — and command dispatch
(`exec_on_mode`) on every subsequent state runs that same mode's
`execute`. -/
theorem mode_binding_monotonic (dm : ModeRegistry) (s : AgentState)
    (impl : Mode) (cmds : List (String × String × Kwargs))
    (h : s.mode_implementation = some impl) :
    (run_commands dm s cmds).mode_implementation = some impl ∧
    ∀ command_part kwargs,
      exec_on_mode (run_commands dm s cmds) command_part kwargs =
        impl.execute command_part kwargs := by
  have hslot : (run_commands dm s cmds).mode_implementation = some impl := by
    induction cmds generalizing s with
    | nil => exact h
    | cons c rest ih =>
        show (run_commands dm
          (execute_command dm c.1 s c.2.1 c.2.2).1 rest).mode_implementation =
            some impl
        exact ih _ (execute_command_preserves_bound dm c.1 s c.2.1 c.2.2 impl h)
  refine ⟨hslot, fun cp kwargs => ?_⟩
  unfold exec_on_mode
  rw [hslot]

/-- Witness for C3: a bound agent stays bound across two further calls
(one for its own mode, one for a different mode). -/
theorem mode_binding_monotonic_witness :
    (run_commands dmFail boundA
        [("f1", "a.b", []), ("f2", "clean.wipe", [])]).mode_implementation =
      some modeA :=
  (mode_binding_monotonic dmFail boundA modeA
    [("f1", "a.b", []), ("f2", "clean.wipe", [])] rfl).1

/-- C4 counterexample: the agent is bound to mode `deploy` and receives the
command `"DEPLOY.x"`.  `"DEPLOY"` equals `"deploy"` case-insensitively, yet
mode verification rejects it — the source lowercases only the *bound* name,
never the incoming mode part. -/
theorem uppercase_mode_part_rejected :
    py_lower "DEPLOY" = py_lower "deploy" ∧
    (execute_command dmFail "f1" boundDeploy "DEPLOY.x" []).2 =
      .error (.InvalidCommandError "Agent is already in deploy mode") :=
  ⟨rfl, rfl⟩

/-- C4 (amended): on an agent bound to `impl`, a parsed mode name `m`
passes `_verify_mode` exactly when `m` equals `py_lower impl.name`
verbatim — the comparison lowercases only the bound mode's name, so any
other spelling of `m` (including upper-case ones) is rejected with
`InvalidCommandError ("Agent is already in ... mode")`; in both cases the
state, and with it the bound mode, is unchanged. -/
theorem mode_comparison_lowercases_bound_name (dm : ModeRegistry)
    (s : AgentState) (impl : Mode) (h : s.mode_implementation = some impl)
    (m : String) :
    (m = py_lower impl.name → verify_mode dm s m = .ok s) ∧
    (m ≠ py_lower impl.name →
      verify_mode dm s m =
        .error (.InvalidCommandError
          ("Agent is already in " ++ impl.name ++ " mode"))) :=
  ⟨fun hm => verify_mode_ok_of_bound dm s impl m h hm,
   fun hm => verify_mode_mismatch dm s impl m h (Ne.symm hm)⟩

/-- Witness for the amended C4 at the bound mode `deploy`. -/
theorem mode_comparison_witness :
    verify_mode dmFail boundDeploy "deploy" = .ok boundDeploy :=
  (mode_comparison_lowercases_bound_name dmFail boundDeploy modeDeploy rfl
    "deploy").1 rfl

/-- C5: on an unbound agent, when the registry fails to resolve the parsed
mode name (whatever exception the loader raises), `execute_command` fails
with `InvalidCommandError ("Unknown mode: ...")` and returns the state
unchanged — still unbound, history untouched. -/
theorem unknown_mode_rejected (dm : ModeRegistry) (fid : String)
    (s : AgentState) (name : String) (kwargs : Kwargs)
    (mode_part command_part : String) (e : Exc)
    (hunbound : s.mode_implementation = none)
    (hsplit : split_command name = .ok (mode_part, command_part))
    (hload : dm (py_lower mode_part) = .error e) :
    execute_command dm fid s name kwargs =
      (s, .error (.InvalidCommandError ("Unknown mode: " ++ mode_part))) := by
  have hv : verify_mode dm s mode_part =
      .error (.InvalidCommandError ("Unknown mode: " ++ mode_part)) := by
    simp only [verify_mode, hunbound, load_mode_implementation, hload]
  simp only [execute_command, hsplit, hv]

/-- Witness for C5: `"unknownmode.x"` on a fresh agent with an empty
registry. -/
theorem unknown_mode_rejected_witness :
    execute_command dmFail "f1" initialAgentState "unknownmode.x" [] =
      (initialAgentState,
       .error (.InvalidCommandError "Unknown mode: unknownmode")) :=
  unknown_mode_rejected dmFail "f1" initialAgentState "unknownmode.x" []
    "unknownmode" "x" "no such plugin" rfl rfl rfl

/-- Numeric fact used to discharge witness hypotheses. -/
theorem min_jitter_le_half : min_jitter_multiplier ≤ 1 / 2 := by
  norm_num [min_jitter_multiplier]

/-- Numeric fact used to discharge witness hypotheses. -/
theorem one_le_max_delay_bound : (1 : ℚ) ≤ 300 := by norm_num

/-- Numeric fact used to discharge witness hypotheses. -/
theorem half_le_max_jitter : (1 / 2 : ℚ) ≤ max_jitter_multiplier := by
  norm_num [max_jitter_multiplier]

/-- C6: a non-content-validation exception raised by the mode's `execute`
does not propagate: `execute_command` returns a completed, failed,
synchronous `CommandResult` carrying the command name, the original
arguments and the captured error; the result is recorded in the history
under its id and remains retrievable by that id with identical content. -/
theorem mode_exception_recorded (dm : ModeRegistry) (fid : String)
    (s : AgentState) (impl : Mode) (name : String) (kwargs : Kwargs)
    (mode_part command_part : String) (e : Exc)
    (hbound : s.mode_implementation = some impl)
    (hsplit : split_command name = .ok (mode_part, command_part))
    (hmatch : mode_part = py_lower impl.name)
    (hnotbusy : last_result_not_done s = false)
    (hraise : impl.execute command_part kwargs = .raises e) :
    execute_command dm fid s name kwargs =
      (record_result s (SyncCommandResult fid name kwargs false e),
       .ok (SyncCommandResult fid name kwargs false e)) ∧
    (SyncCommandResult fid name kwargs false e).id = fid ∧
    (SyncCommandResult fid name kwargs false e).is_done = true ∧
    (SyncCommandResult fid name kwargs false e).success = false ∧
    (SyncCommandResult fid name kwargs false e).error = some e ∧
    (SyncCommandResult fid name kwargs false e).command_name = name ∧
    (SyncCommandResult fid name kwargs false e).command_params = kwargs ∧
    get_command_result (execute_command dm fid s name kwargs).1 fid =
      .ok (SyncCommandResult fid name kwargs false e) := by
  have hv : verify_mode dm s mode_part = .ok s :=
    verify_mode_ok_of_bound dm s impl mode_part hbound hmatch
  have hex : exec_on_mode s command_part kwargs = .raises e := by
    unfold exec_on_mode; rw [hbound]; exact hraise
  have heq : execute_command dm fid s name kwargs =
      (record_result s (SyncCommandResult fid name kwargs false e),
       .ok (SyncCommandResult fid name kwargs false e)) := by
    simp only [execute_command, hsplit, hv, hnotbusy, Bool.false_eq_true,
      if_false, hex]
  refine ⟨heq, rfl, rfl, rfl, rfl, rfl, rfl, ?_⟩
  rw [heq]
  have hl : od_lookup (od_insert s.command_results
      (SyncCommandResult fid name kwargs false e).id
      (SyncCommandResult fid name kwargs false e)) fid =
      some (SyncCommandResult fid name kwargs false e) :=
    od_lookup_insert _ _ _
  simp only [get_command_result, record_result, hl]

/-- Witness for C6 at a mode that raises an ordinary exception. -/
theorem mode_exception_recorded_witness :
    execute_command dmFail "f9" boundRaise "m.go" [] =
      (record_result boundRaise (SyncCommandResult "f9" "m.go" [] false "boom"),
       .ok (SyncCommandResult "f9" "m.go" [] false "boom")) :=
  (mode_exception_recorded dmFail "f9" boundRaise modeRaise "m.go" [] "m" "go"
    "boom" rfl rfl rfl rfl rfl).1

/-- C9: an `InvalidContentError` raised by the mode's `execute` is re-raised
to the caller, and no `CommandResult` is recorded: the returned state is the
post-verification state, whose result history equals the original one. -/
theorem invalid_content_reraised (dm : ModeRegistry) (fid : String)
    (s s1 : AgentState) (impl : Mode) (name : String) (kwargs : Kwargs)
    (mode_part command_part : String) (e : Exc)
    (hsplit : split_command name = .ok (mode_part, command_part))
    (hverify : verify_mode dm s mode_part = .ok s1)
    (hbound : s1.mode_implementation = some impl)
    (hnotbusy : last_result_not_done s1 = false)
    (hraise : impl.execute command_part kwargs = .invalid_content e) :
    execute_command dm fid s name kwargs =
      (s1, .error (.InvalidContentError e)) ∧
    s1.command_results = s.command_results := by
  have hex : exec_on_mode s1 command_part kwargs = .invalid_content e := by
    unfold exec_on_mode; rw [hbound]; exact hraise
  constructor
  · simp only [execute_command, hsplit, hverify, hnotbusy, Bool.false_eq_true,
      if_false, hex]
  · exact verify_mode_preserves_results dm s mode_part s1 hverify

/-- Witness for C9 at a mode that raises `InvalidContentError`. -/
theorem invalid_content_reraised_witness :
    execute_command dmFail "f1" boundContent "m.go" [] =
      (boundContent, .error (.InvalidContentError "bad content")) :=
  (invalid_content_reraised dmFail "f1" boundContent boundContent modeContent
    "m.go" [] "m" "go" "bad content" rfl rfl rfl rfl rfl).1

/-- C7: a failing `do_heartbeat` returns the deadline `now + error_delay`
computed from the pre-update delay and then sets
`error_delay := min (error_delay * 2.7) 300`; starting from the initial
delay `1`, the synthesized delay sequence over consecutive failures is
non-decreasing and bounded above by `300`, and any successful heartbeat
resets the delay to the initial `1`. -/
theorem heartbeat_backoff_correct :
    initial_delay = 1 ∧ backoff_factor = 27 / 10 ∧ max_delay = 300 ∧
    (∀ (s : HeartbeaterState) (now : ℚ),
      do_heartbeat s now .failure =
        (now + s.error_delay,
         { error_delay := min (s.error_delay * backoff_factor) max_delay })) ∧
    (∀ n : Nat, delay_after_failures n ≤ delay_after_failures (n + 1)) ∧
    (∀ n : Nat, delay_after_failures n ≤ max_delay) ∧
    (∀ (s : HeartbeaterState) (now deadline : ℚ),
      (do_heartbeat s now (.success deadline)).2.error_delay = initial_delay) :=
  ⟨rfl, rfl, rfl, fun _ _ => rfl, delay_after_failures_mono,
   delay_after_failures_le_max, fun _ _ _ => rfl⟩

/-- C8 counterexample: with the deadline already past (gap `0 − 1 = −1`) and
the jitter draw `0.3` (inside the jitter range), the computed sleep interval
is `−0.3 < 0`: the loop does not clamp the interval to be non-negative. -/
theorem negative_gap_interval_negative :
    min_jitter_multiplier ≤ 3 / 10 ∧ (3 / 10 : ℚ) ≤ max_jitter_multiplier ∧
    heartbeat_interval 0 1 (3 / 10) = -(3 / 10) ∧
    heartbeat_interval 0 1 (3 / 10) < 0 :=
  ⟨le_refl _, by norm_num [min_jitter_multiplier, max_jitter_multiplier],
   by norm_num [heartbeat_interval], by norm_num [heartbeat_interval]⟩

/-- C8 (amended): the sleep interval equals `gap · r` exactly; for a
non-negative gap and a jitter draw `r ∈ [0.3, 0.6]` it lies in
`[0.3·gap, 0.6·gap]`, while for a negative gap the computed interval is
negative — no clamping is applied in the loop itself (the negative value is
handed to the wait primitive, outside this code). -/
theorem jitter_interval_bounds (next_heartbeat_by now r : ℚ)
    (h1 : min_jitter_multiplier ≤ r) (h2 : r ≤ max_jitter_multiplier) :
    heartbeat_interval next_heartbeat_by now r =
      (next_heartbeat_by - now) * r ∧
    (0 ≤ next_heartbeat_by - now →
      min_jitter_multiplier * (next_heartbeat_by - now) ≤
        heartbeat_interval next_heartbeat_by now r ∧
      heartbeat_interval next_heartbeat_by now r ≤
        max_jitter_multiplier * (next_heartbeat_by - now)) ∧
    (next_heartbeat_by - now < 0 →
      heartbeat_interval next_heartbeat_by now r < 0) := by
  refine ⟨rfl, fun hg => ⟨?_, ?_⟩, fun hg => ?_⟩
  · unfold heartbeat_interval
    calc min_jitter_multiplier * (next_heartbeat_by - now)
        = (next_heartbeat_by - now) * min_jitter_multiplier := by ring
      _ ≤ (next_heartbeat_by - now) * r := mul_le_mul_of_nonneg_left h1 hg
  · unfold heartbeat_interval
    calc (next_heartbeat_by - now) * r
        ≤ (next_heartbeat_by - now) * max_jitter_multiplier :=
          mul_le_mul_of_nonneg_left h2 hg
      _ = max_jitter_multiplier * (next_heartbeat_by - now) := by ring
  · unfold heartbeat_interval
    have hr : 0 < r :=
      lt_of_lt_of_le (by norm_num [min_jitter_multiplier]) h1
    exact mul_neg_of_neg_of_pos hg hr

/-- Witness for the amended C8 at gap `6` and jitter draw `1/2`. -/
theorem jitter_interval_bounds_witness :
    heartbeat_interval 10 4 (1 / 2) = (10 - 4) * (1 / 2) :=
  (jitter_interval_bounds 10 4 (1 / 2) min_jitter_le_half half_le_max_jitter).1

/-- C10: the heartbeater's `error_delay` always lies in `[1, 300]` — it is
initialised to `initial_delay = 1`, and every `do_heartbeat` call, whether
the heartbeat succeeds or fails, keeps it within those bounds. -/
theorem error_delay_invariant (s : HeartbeaterState) (now : ℚ)
    (o : HeartbeatOutcome) (h1 : 1 ≤ s.error_delay)
    (h2 : s.error_delay ≤ 300) :
    (1 ≤ initial_delay ∧ initial_delay ≤ 300) ∧
    1 ≤ (do_heartbeat s now o).2.error_delay ∧
    (do_heartbeat s now o).2.error_delay ≤ 300 := by
  refine ⟨⟨by norm_num [initial_delay], by norm_num [initial_delay]⟩, ?_, ?_⟩
  · cases o with
    | success d => norm_num [do_heartbeat, initial_delay]
    | failure =>
        show 1 ≤ min (s.error_delay * backoff_factor) max_delay
        apply le_min
        · rw [backoff_factor]; linarith
        · norm_num [max_delay]
  · cases o with
    | success d => norm_num [do_heartbeat, initial_delay]
    | failure =>
        show min (s.error_delay * backoff_factor) max_delay ≤ 300
        exact le_trans (min_le_right _ _) (by norm_num [max_delay])

/-- Witness for C10 at a freshly initialised heartbeater and a failure. -/
theorem error_delay_invariant_witness :
    (1 ≤ initial_delay ∧ initial_delay ≤ 300) ∧
    1 ≤ (do_heartbeat { error_delay := 1 } 0 .failure).2.error_delay ∧
    (do_heartbeat { error_delay := 1 } 0 .failure).2.error_delay ≤ 300 :=
  error_delay_invariant { error_delay := 1 } 0 .failure (le_refl 1)
    one_le_max_delay_bound
